import Mathlib

/-!
Verification of the ulauncher Fedora-packager plugin (`main.py`).

The embedding below translates the plugin's pure logic into Lean.  Network
responses (pagure search results, pagure user-repo pages, koji package and
build records, bodhi update records) are passed as explicit parameters, and
the locale-dependent timestamp formatting of `strftime` is passed as an
opaque function parameter `fmt : Int → String`.  Python string operations
are modelled over `List Char` (`String.data`), which matches Python's
code-point semantics.
-/

/-! ### Python string primitives -/

/-- Python `str.split()` (no separator): split on runs of whitespace,
discarding empty chunks.  `acc` is the word currently being accumulated. -/
def pyWordsAux : List Char → List Char → List (List Char)
  | [], acc => if acc = [] then [] else [acc]
  | c :: cs, acc =>
    if c.isWhitespace then
      if acc = [] then pyWordsAux cs [] else acc :: pyWordsAux cs []
    else pyWordsAux cs (acc ++ [c])

def pyWords (l : List Char) : List (List Char) := pyWordsAux l []

/-- Python `s.split()` on a `String`. -/
def pySplit (s : String) : List String := (pyWords s.data).map String.mk

/-- Python `s.strip()` on the character list. -/
def pyStripChars (l : List Char) : List Char :=
  ((l.dropWhile Char.isWhitespace).reverse.dropWhile Char.isWhitespace).reverse

/-- Python `s.strip()`. -/
def pyStrip (s : String) : String := String.mk (pyStripChars s.data)

/-- Python `s.split(sep)` for a one-character separator, keeping empty chunks. -/
def splitChar (sep : Char) : List Char → List (List Char)
  | [] => [[]]
  | c :: cs =>
    let r := splitChar sep cs
    if c = sep then [] :: r else (c :: r.headD []) :: r.tail

/-- Python `s.startswith(pre)`. -/
def startswith (s pre : String) : Bool := pre.data.isPrefixOf s.data

/-- Python string `<=` (lexicographic on code points), used by `sorted` on
string keys. -/
def charListLe : List Char → List Char → Bool
  | [], _ => true
  | _ :: _, [] => false
  | a :: as, b :: bs =>
    if a.toNat < b.toNat then true
    else if b.toNat < a.toNat then false
    else charListLe as bs

/-! ### Data model -/

/-- The `on_enter` action attached to a result item: one of ulauncher's
`OpenUrlAction`, `HideWindowAction`, `SetUserQueryAction`. -/
inductive ItemAction where
  | openUrl : String → ItemAction
  | hideWindow : ItemAction
  | setUserQuery : String → ItemAction
deriving DecidableEq

/-- `ExtensionResultItem`: the fields the plugin constructs.  An item built
without a `keyword` argument (the missing-package placeholder in
`get_builds`) has `keyword = none`. -/
structure ResultItem where
  icon : String
  keyword : Option String
  name : String
  description : String
  on_enter : ItemAction
deriving DecidableEq

/-- A pagure project record as used by the plugin: `fullname`, `name`,
`description`. -/
structure Project where
  fullname : String
  name : String
  description : String
deriving DecidableEq

/-- A koji build record as used by the plugin.  Fields read with `.get` are
`Option`s; `state`, `creation_ts` and `build_id` are always present in koji
build records and are accessed directly. -/
structure Build where
  nvr : Option String
  state : Nat
  owner_name : Option String
  owner_id : Option Int
  completion_ts : Option Int
  start_ts : Option Int
  creation_ts : Int
  build_id : Int
deriving DecidableEq

/-- A bodhi update record as used by the plugin. -/
structure Update where
  title : String
  status : String
  date_submitted : String
  user_name : String
  karma : Int
  url : String
deriving DecidableEq

/-- What a dispatcher branch hands back to ulauncher: either a
`RenderResultListAction` wrapper, a bare Python list of items, the implicit
`None` of falling off the end of `on_event`, or a propagated exception. -/
inductive DispatchResult where
  | render : List ResultItem → DispatchResult
  | bare : List ResultItem → DispatchResult
  | noAction : DispatchResult
  | err : DispatchResult
deriving DecidableEq

/-- The item list carried by a dispatch result (empty for `noAction`/`err`). -/
def DispatchResult.items : DispatchResult → List ResultItem
  | .render l => l
  | .bare l => l
  | .noAction => []
  | .err => []

def DispatchResult.isRender : DispatchResult → Bool
  | .render _ => true
  | _ => false

def DispatchResult.isBare : DispatchResult → Bool
  | .bare _ => true
  | _ => false

/-! ### search_pkg_src -/

/-- `NS_ORDER = {"rpms": 0, "fork": 1}` -/
def NS_ORDER : List (String × Nat) := [("rpms", 0), ("fork", 1)]

/-- `NS_ORDER.get(x.name.split("/")[0], 2)` -/
def nsRank (name : String) : Nat :=
  (NS_ORDER.lookup (String.mk ((splitChar '/' name.data).headD []))).getD 2

/-- The sort key of `search_pkg_src`:
`(NS_ORDER.get(x.name.split("/")[0], 2), len(x.name))`. -/
def search_key (x : ResultItem) : Nat × Nat := (nsRank x.name, x.name.length)

/-- Python tuple `<=` on `(Nat, Nat)` keys. -/
def pairLeB (p q : Nat × Nat) : Bool :=
  decide (p.1 < q.1 ∨ (p.1 = q.1 ∧ p.2 ≤ q.2))

def search_le (a b : ResultItem) : Bool := pairLeB (search_key a) (search_key b)

/-- The item built for one project, both in `search_pkg_src` and in
`return_project_list` (the two loops construct identical items). -/
def project_item (kw : String) (p : Project) : ResultItem :=
  { icon := "images/pagure.png"
    keyword := some kw
    name := p.fullname
    description := p.description
    on_enter := .setUserQuery (kw ++ " " ++ p.name ++ " ") }

/-- The `pattern` request parameter of the search call:
`f"*{search_arg.strip()}*"`. -/
def search_pattern (search_arg : String) : String := "*" ++ pyStrip search_arg ++ "*"

/-- `search_pkg_src(keyword, search_arg)`.  `res_url` is `res.url` and
`projects` is the `projects` list of the JSON response. -/
def search_pkg_src (kw search_arg res_url : String) (projects : List Project) :
    DispatchResult :=
  let items := (projects.map (project_item kw)).mergeSort search_le
  if items = [] then
    .render [{ icon := "images/pagure.png"
               keyword := some kw
               name := "Nothing found"
               description := res_url
               on_enter := .hideWindow }]
  else .render items

/-! ### fetch_user_projects / return_project_list -/

/-- `fetch_user_projects(user)`.  The parameter is the sequence of page
responses obtained by starting from the user URL and following
`repos_pagination.next` until it is absent; each entry is the page's
`repos` value (`none` when the JSON has no `repos` key, in which case the
Python `for repo in rsp_data.get("repos")` raises `TypeError`, modelled as
`none`). -/
def fetch_user_projects : List (Option (List Project)) → Option (List Project)
  | [] => some []
  | none :: _ => none
  | some rs :: rest => (fetch_user_projects rest).map (fun tail => rs ++ tail)

/-- `return_project_list(event)`: fetch all user projects and render them;
a failing fetch propagates as an exception (`err`). -/
def return_project_list (kw : String) (pages : List (Option (List Project))) :
    DispatchResult :=
  match fetch_user_projects pages with
  | none => .err
  | some projects => .render (projects.map (project_item kw))

/-! ### get_builds -/

/-- `koji.BUILD_STATES` integer-to-name mapping. -/
def BUILD_STATES : List String := ["BUILDING", "COMPLETE", "DELETED", "FAILED", "CANCELED"]

/-- Python truthiness of an optional numeric field (`None` and `0` are falsy). -/
def truthy : Option Int → Bool
  | none => false
  | some v => v != 0

/-- `build.get("completion_ts") or build.get("start_ts") or build.get("creation_ts")` -/
def useful_time_ts (b : Build) : Int :=
  if truthy b.completion_ts then b.completion_ts.getD 0
  else if truthy b.start_ts then b.start_ts.getD 0
  else b.creation_ts

/-- `build.get("owner_name") or build.get("owner_id", "Unknown User")` as the
displayed string. -/
def build_owner (b : Build) : String :=
  match b.owner_name with
  | some s =>
    if s = "" then
      match b.owner_id with
      | some i => toString i
      | none => "Unknown User"
    else s
  | none =>
    match b.owner_id with
    | some i => toString i
    | none => "Unknown User"

/-- The item built for one build inside the `get_builds` loop.  `fmt` stands
for `datetime.fromtimestamp(ts).astimezone().strftime("%Y-%m-%d %H:%M:%S %Z")`. -/
def build_item (fmt : Int → String) (kw : String) (b : Build) : ResultItem :=
  { icon := "images/koji.png"
    keyword := some kw
    name := b.nvr.getD "Unknown" ++ " [" ++ BUILD_STATES.getD b.state "" ++ "]"
    description := build_owner b ++ " - " ++ fmt (useful_time_ts b)
    on_enter := .openUrl
      ("https://koji.fedoraproject.org/koji/buildinfo?buildID=" ++ toString b.build_id) }

/-- Modelled from the spec: the koji RPC `listBuilds(packageID,
createdAfter=<unix ts>)` is external to this repository; per the spec's
external-interface section it returns the package's builds created within
the window, i.e. those whose creation timestamp is after the cutoff.
`db` is the package's full build list. -/
def listBuilds (db : List Build) (createdAfter : Int) : List Build :=
  db.filter (fun b => decide (createdAfter < b.creation_ts))

/-- `item.sort_key` comparison: ascending elapsed seconds. -/
def build_sort_le (a b : ResultItem × Int) : Bool := decide (a.2 ≤ b.2)

/-- `get_builds(keyword, package)`.  `now` is the invocation instant
(`datetime.now()` as a unix timestamp), `pkginfo` is the result of
`session.getPackage(package)` (its `id` when found), and `db` is the
package's build list served by `session.listBuilds`. -/
def get_builds (fmt : Int → String) (now : Int) (kw package : String)
    (pkginfo : Option Int) (db : List Build) : DispatchResult :=
  match pkginfo with
  | none =>
    .bare [{ icon := "images/koji.png"
             keyword := none
             name := "Nothing found for " ++ package
             description := ""
             on_enter := .hideWindow }]
  | some _ =>
    let cutoff_ts : Int := now - 7 * 86400
    let withKeys := (listBuilds db cutoff_ts).map
      (fun b => (build_item fmt kw b, now - useful_time_ts b))
    if withKeys = [] then
      .render [{ icon := "images/koji.png"
                 keyword := some kw
                 name := "Nothing found"
                 description := "No recent (7 days) builds found"
                 on_enter := .hideWindow }]
    else .render ((withKeys.mergeSort build_sort_le).map Prod.fst)

/-! ### get_updates -/

/-- The item built for one update inside the `get_updates` loop. -/
def update_item (kw : String) (u : Update) : ResultItem :=
  { icon := "images/bodhi.png"
    keyword := some kw
    name := u.title ++ " (" ++ u.status ++ ")"
    description := u.date_submitted ++ " - " ++ u.user_name ++ " - karma: " ++ toString u.karma
    on_enter := .openUrl u.url }

/-- `sorted(items, key=lambda x: x.description, reverse=True)`: descending
lexicographic comparison of the description strings. -/
def update_desc_ge (a b : ResultItem) : Bool :=
  charListLe b.description.data a.description.data

/-- `get_updates(keyword, package)`; `updates` is the `updates` list of the
bodhi response. -/
def get_updates (kw package : String) (updates : List Update) : DispatchResult :=
  let items := updates.map (update_item kw)
  if items = [] then
    .render [{ icon := "images/bodhi.png"
               keyword := some kw
               name := "Nothing found"
               description := "No current updates found"
               on_enter := .hideWindow }]
  else .render (items.mergeSort update_desc_ge)

/-! ### get_package_options / option_from_result -/

/-- First menu entry of `get_package_options`. -/
def goto_src_item (kw package : String) : ResultItem :=
  { icon := "images/pagure.png"
    keyword := some kw
    name := "Goto " ++ package ++ " src"
    description := "Open the dist-git for " ++ package ++ " in a browser."
    on_enter := .openUrl ("https://src.fedoraproject.org/rpms/" ++ package) }

/-- Second menu entry of `get_package_options`. -/
def builds_option_item (kw package : String) : ResultItem :=
  { icon := "images/koji.png"
    keyword := some kw
    name := kw ++ " " ++ package ++ " builds"
    description := "Lists recent builds for " ++ package
    on_enter := .setUserQuery (kw ++ " " ++ package ++ " builds") }

/-- Third menu entry of `get_package_options`. -/
def updates_option_item (kw package : String) : ResultItem :=
  { icon := "images/bodhi.png"
    keyword := some kw
    name := kw ++ " " ++ package ++ " updates"
    description := "Lists recent updates for " ++ package
    on_enter := .setUserQuery (kw ++ " " ++ package ++ " updates") }

/-- `get_package_options(keyword, package)`: the fixed three-item menu. -/
def get_package_options (kw package : String) : List ResultItem :=
  [goto_src_item kw package, builds_option_item kw package, updates_option_item kw package]

/-- `option_from_result(result) = result.name.split()[-1]`. -/
def option_from_result (r : ResultItem) : String := (pySplit r.name).getLastD ""

/-! ### Dispatcher -/

/-- `KeywordQueryEventListener.on_event`.  `kw`/`arg` are the event's keyword
and argument; the remaining parameters are the external responses the
reached branch would consume. -/
def on_event (kw arg : String) (res_url : String) (sprojects : List Project)
    (pages : List (Option (List Project))) (fmt : Int → String) (now : Int)
    (pkginfo : Option Int) (db : List Build) (updates : List Update) :
    DispatchResult :=
  if arg = "" then return_project_list kw pages
  else
    let args := pySplit arg
    if args.length = 1 ∧ arg.data.getLastD ' ' ≠ ' ' then
      search_pkg_src kw (args.getD 0 "") res_url sprojects
    else if args.length = 1 then
      .bare (get_package_options kw (args.getD 0 ""))
    else if args.length = 2 then
      if args.getD 1 "" = "builds" then
        get_builds fmt now kw (args.getD 0 "") pkginfo db
      else if args.getD 1 "" = "updates" then
        get_updates kw (args.getD 0 "") updates
      else
        .bare ((get_package_options kw (args.getD 0 "")).filter
          (fun opt => startswith (option_from_result opt) (args.getD 1 "")))
    else .noAction

/-! ### Comparator facts -/

theorem pairLeB_total (p q : Nat × Nat) : pairLeB p q || pairLeB q p := by
  simp only [pairLeB, Bool.or_eq_true, decide_eq_true_eq]
  omega

theorem pairLeB_trans (p q r : Nat × Nat) :
    pairLeB p q → pairLeB q r → pairLeB p r := by
  simp only [pairLeB, decide_eq_true_eq]
  omega

theorem search_le_total (a b : ResultItem) : search_le a b || search_le b a :=
  pairLeB_total _ _

theorem search_le_trans (a b c : ResultItem) :
    search_le a b → search_le b c → search_le a c :=
  pairLeB_trans _ _ _

theorem build_sort_le_total (a b : ResultItem × Int) :
    build_sort_le a b || build_sort_le b a := by
  simp only [build_sort_le, Bool.or_eq_true, decide_eq_true_eq]
  omega

theorem build_sort_le_trans (a b c : ResultItem × Int) :
    build_sort_le a b → build_sort_le b c → build_sort_le a c := by
  simp only [build_sort_le, decide_eq_true_eq]
  omega

theorem charListLe_total : ∀ a b, charListLe a b || charListLe b a
  | [], _ => by simp [charListLe]
  | _ :: _, [] => by simp [charListLe]
  | a :: as, b :: bs => by
    by_cases h1 : a.toNat < b.toNat
    · simp [charListLe, h1]
    · by_cases h2 : b.toNat < a.toNat
      · simp [charListLe, h1, h2]
      · have := charListLe_total as bs
        simpa [charListLe, h1, h2] using this

theorem charListLe_trans : ∀ a b c, charListLe a b → charListLe b c → charListLe a c
  | [], _, _ => by simp [charListLe]
  | _ :: _, [], _ => by simp [charListLe]
  | _ :: _, _ :: _, [] => by intro _ hbc; simp [charListLe] at hbc
  | a :: as, b :: bs, c :: cs => by
    intro hab hbc
    rcases Nat.lt_trichotomy a.toNat b.toNat with h1 | h1 | h1
    · rcases Nat.lt_trichotomy b.toNat c.toNat with h3 | h3 | h3
      · simp [charListLe, show a.toNat < c.toNat by omega]
      · simp [charListLe, show a.toNat < c.toNat by omega]
      · simp [charListLe, Nat.lt_asymm h3, h3] at hbc
    · rcases Nat.lt_trichotomy b.toNat c.toNat with h3 | h3 | h3
      · simp [charListLe, show a.toNat < c.toNat by omega]
      · have h5 : ¬ a.toNat < c.toNat := by omega
        have h6 : ¬ c.toNat < a.toNat := by omega
        have ha : charListLe as bs = true := by
          simpa [charListLe, h1, Nat.lt_irrefl] using hab
        have hb : charListLe bs cs = true := by
          simpa [charListLe, h3, Nat.lt_irrefl] using hbc
        simpa [charListLe, h5, h6] using charListLe_trans as bs cs ha hb
      · simp [charListLe, Nat.lt_asymm h3, h3] at hbc
    · simp [charListLe, Nat.lt_asymm h1, h1] at hab

theorem update_desc_ge_total (a b : ResultItem) :
    update_desc_ge a b || update_desc_ge b a := by
  simpa [update_desc_ge, Bool.or_comm] using
    charListLe_total a.description.data b.description.data

theorem update_desc_ge_trans (a b c : ResultItem) :
    update_desc_ge a b → update_desc_ge b c → update_desc_ge a c := by
  intro h1 h2
  exact charListLe_trans _ _ _ h2 h1

/-! ### Word-splitting facts -/

theorem data_ne_of_ne_empty (s : String) (h : s ≠ "") : s.data ≠ [] := by
  intro hd
  exact h (by cases s; simp at hd; simp [hd])

theorem pyWordsAux_mem_ne_nil :
    ∀ (l acc : List Char) (w : List Char), w ∈ pyWordsAux l acc → w ≠ []
  | [], acc, w => by
    by_cases h : acc = [] <;> intro hw <;> simp [pyWordsAux, h] at hw
    simp [hw, h]
  | c :: cs, acc, w => by
    intro hw
    by_cases hws : c.isWhitespace
    · by_cases h : acc = []
      · exact pyWordsAux_mem_ne_nil cs [] w (by simpa [pyWordsAux, hws, h] using hw)
      · simp only [pyWordsAux, hws, if_true, h, if_false] at hw
        rcases List.mem_cons.mp hw with h1 | h1
        · simp [h1, h]
        · exact pyWordsAux_mem_ne_nil cs [] w h1
    · exact pyWordsAux_mem_ne_nil cs (acc ++ [c]) w
        (by simpa [pyWordsAux, hws] using hw)

theorem pyWordsAux_mem_nonWS :
    ∀ (l acc : List Char), (∀ c ∈ acc, c.isWhitespace = false) →
      ∀ w ∈ pyWordsAux l acc, ∀ c ∈ w, c.isWhitespace = false
  | [], acc => by
    intro hacc w hw
    by_cases h : acc = [] <;> simp [pyWordsAux, h] at hw
    simp [hw]
    exact hacc
  | c :: cs, acc => by
    intro hacc w hw
    by_cases hws : c.isWhitespace
    · by_cases h : acc = []
      · exact pyWordsAux_mem_nonWS cs [] (by simp) w
          (by simpa [pyWordsAux, hws, h] using hw) 
      · simp only [pyWordsAux, hws, if_true, h, if_false] at hw
        rcases List.mem_cons.mp hw with h1 | h1
        · intro x hx; exact hacc x (h1 ▸ hx)
        · exact pyWordsAux_mem_nonWS cs [] (by simp) w h1
    · refine pyWordsAux_mem_nonWS cs (acc ++ [c]) ?_ w
        (by simpa [pyWordsAux, hws] using hw)
      intro x hx
      rcases List.mem_append.mp hx with h1 | h1
      · exact hacc x h1
      · simp at h1
        simpa [h1] using (Bool.of_not_eq_true hws)

theorem pyWordsAux_append_space :
    ∀ (xs : List Char) (acc ys : List Char),
      pyWordsAux (xs ++ ' ' :: ys) acc = pyWordsAux xs acc ++ pyWordsAux ys []
  | [], acc, ys => by
    by_cases h : acc = [] <;>
      simp [pyWordsAux, h, show (' ').isWhitespace = true by decide]
  | c :: cs, acc, ys => by
    by_cases hws : c.isWhitespace
    · by_cases h : acc = [] <;>
        simp [pyWordsAux, hws, h, pyWordsAux_append_space cs]
    · simp [pyWordsAux, hws, pyWordsAux_append_space cs]

theorem pyWordsAux_word_only :
    ∀ (w acc : List Char), w ≠ [] → (∀ c ∈ w, c.isWhitespace = false) →
      pyWordsAux w acc = [acc ++ w]
  | [], acc => by intro h; exact absurd rfl h
  | c :: w', acc => by
    intro _ hnws
    have hc : c.isWhitespace = false := hnws c (by simp)
    by_cases hw' : w' = []
    · simp [pyWordsAux, hc, hw']
    · have := pyWordsAux_word_only w' (acc ++ [c]) hw'
        (fun x hx => hnws x (by simp [hx]))
      simp [pyWordsAux, hc, this]

theorem dropWhile_eq_self_of_none (p : Char → Bool) :
    ∀ (l : List Char), (∀ c ∈ l, p c = false) → l.dropWhile p = l
  | [], _ => rfl
  | c :: cs, h => by
    rw [List.dropWhile_cons_of_neg]
    simp [h c (by simp)]

theorem pyStripChars_of_word (w : List Char) (h : ∀ c ∈ w, c.isWhitespace = false) :
    pyStripChars w = w := by
  unfold pyStripChars
  rw [dropWhile_eq_self_of_none _ w h,
    dropWhile_eq_self_of_none _ w.reverse (fun c hc => h c (List.mem_reverse.mp hc)),
    List.reverse_reverse]

theorem pyStrip_of_token (arg : String) (t : String) (ht : t ∈ pySplit arg) :
    pyStrip t = t := by
  rcases List.mem_map.mp ht with ⟨w, hw, rfl⟩
  have hnws := pyWordsAux_mem_nonWS arg.data [] (by simp) w hw
  simp [pyStrip, pyStripChars_of_word w hnws]

theorem pySplit_mem_ne_empty (arg : String) (t : String) (ht : t ∈ pySplit arg) :
    t ≠ "" := by
  rcases List.mem_map.mp ht with ⟨w, hw, rfl⟩
  have := pyWordsAux_mem_ne_nil arg.data [] w hw
  intro h
  apply this
  have : (String.mk w).data = ("" : String).data := by rw [h]
  simpa using this

/-- The last whitespace-delimited word of `⟨xs ++ ' ' :: w⟩` is `w`, for a
nonempty whitespace-free `w`. -/
theorem lastWord_of_append (xs w : List Char) (hw : w ≠ [])
    (hnws : ∀ c ∈ w, c.isWhitespace = false) :
    ((pyWords (xs ++ ' ' :: w)).map String.mk).getLastD "" = String.mk w := by
  unfold pyWords
  rw [pyWordsAux_append_space xs [] w, pyWordsAux_word_only w [] hw hnws]
  simp

/-! ### Dispatcher branch equations -/

theorem pySplit_empty : pySplit "" = [] := rfl

theorem arg_ne_empty_of_pySplit_ne_nil (arg : String) (h : pySplit arg ≠ []) :
    arg ≠ "" := by
  intro ha
  rw [ha, pySplit_empty] at h
  exact h rfl

theorem on_event_empty (kw res_url : String) (sprojects : List Project)
    (pages : List (Option (List Project))) (fmt : Int → String) (now : Int)
    (pkginfo : Option Int) (db : List Build) (updates : List Update) :
    on_event kw "" res_url sprojects pages fmt now pkginfo db updates =
      return_project_list kw pages := by
  simp [on_event]

theorem on_event_search (kw arg res_url : String) (sprojects : List Project)
    (pages : List (Option (List Project))) (fmt : Int → String) (now : Int)
    (pkginfo : Option Int) (db : List Build) (updates : List Update)
    (t : String) (ht : pySplit arg = [t]) (hl : arg.data.getLastD ' ' ≠ ' ') :
    on_event kw arg res_url sprojects pages fmt now pkginfo db updates =
      search_pkg_src kw t res_url sprojects := by
  have harg : arg ≠ "" := arg_ne_empty_of_pySplit_ne_nil arg (by simp [ht])
  have hl2 : arg.data.getLast?.getD ' ' ≠ ' ' := by
    simpa [List.getLastD_eq_getLast?] using hl
  simp [on_event, harg, ht, hl2]

theorem on_event_menu (kw arg res_url : String) (sprojects : List Project)
    (pages : List (Option (List Project))) (fmt : Int → String) (now : Int)
    (pkginfo : Option Int) (db : List Build) (updates : List Update)
    (t : String) (ht : pySplit arg = [t]) (hl : arg.data.getLastD ' ' = ' ') :
    on_event kw arg res_url sprojects pages fmt now pkginfo db updates =
      .bare (get_package_options kw t) := by
  have harg : arg ≠ "" := arg_ne_empty_of_pySplit_ne_nil arg (by simp [ht])
  have hl2 : arg.data.getLast?.getD ' ' = ' ' := by
    simpa [List.getLastD_eq_getLast?] using hl
  simp [on_event, harg, ht, hl2]

theorem on_event_builds (kw arg res_url : String) (sprojects : List Project)
    (pages : List (Option (List Project))) (fmt : Int → String) (now : Int)
    (pkginfo : Option Int) (db : List Build) (updates : List Update)
    (t : String) (ht : pySplit arg = [t, "builds"]) :
    on_event kw arg res_url sprojects pages fmt now pkginfo db updates =
      get_builds fmt now kw t pkginfo db := by
  have harg : arg ≠ "" := arg_ne_empty_of_pySplit_ne_nil arg (by simp [ht])
  simp [on_event, harg, ht]

theorem on_event_updates (kw arg res_url : String) (sprojects : List Project)
    (pages : List (Option (List Project))) (fmt : Int → String) (now : Int)
    (pkginfo : Option Int) (db : List Build) (updates : List Update)
    (t : String) (ht : pySplit arg = [t, "updates"]) :
    on_event kw arg res_url sprojects pages fmt now pkginfo db updates =
      get_updates kw t updates := by
  have harg : arg ≠ "" := arg_ne_empty_of_pySplit_ne_nil arg (by simp [ht])
  simp [on_event, harg, ht]

theorem on_event_filter (kw arg res_url : String) (sprojects : List Project)
    (pages : List (Option (List Project))) (fmt : Int → String) (now : Int)
    (pkginfo : Option Int) (db : List Build) (updates : List Update)
    (t f : String) (ht : pySplit arg = [t, f]) (hb : f ≠ "builds")
    (hu : f ≠ "updates") :
    on_event kw arg res_url sprojects pages fmt now pkginfo db updates =
      .bare ((get_package_options kw t).filter
        (fun opt => startswith (option_from_result opt) f)) := by
  have harg : arg ≠ "" := arg_ne_empty_of_pySplit_ne_nil arg (by simp [ht])
  simp [on_event, harg, ht, hb, hu]

theorem on_event_other (kw arg res_url : String) (sprojects : List Project)
    (pages : List (Option (List Project))) (fmt : Int → String) (now : Int)
    (pkginfo : Option Int) (db : List Build) (updates : List Update)
    (h1 : (pySplit arg).length ≠ 1) (h2 : (pySplit arg).length ≠ 2)
    (h0 : arg ≠ "") :
    on_event kw arg res_url sprojects pages fmt now pkginfo db updates =
      .noAction := by
  simp [on_event, h0, h1, h2]

/-! ### Package-menu option names -/

theorem last_word_src (pkg : String) :
    (pySplit ("Goto " ++ pkg ++ " src")).getLastD "" = "src" := by
  unfold pySplit
  have h1 : (" src").data = ' ' :: "src".data := rfl
  have hdata : ("Goto " ++ pkg ++ " src").data =
      ("Goto ".data ++ pkg.data) ++ ' ' :: "src".data := by
    simp [String.data_append, h1]
  rw [hdata]
  simpa using lastWord_of_append ("Goto ".data ++ pkg.data) "src".data
    (by decide) (by decide)

theorem last_word_builds (kw pkg : String) :
    (pySplit (kw ++ " " ++ pkg ++ " builds")).getLastD "" = "builds" := by
  unfold pySplit
  have h1 : (" builds").data = ' ' :: "builds".data := rfl
  have hdata : (kw ++ " " ++ pkg ++ " builds").data =
      (kw.data ++ " ".data ++ pkg.data) ++ ' ' :: "builds".data := by
    simp [String.data_append, h1]
  rw [hdata]
  simpa using lastWord_of_append (kw.data ++ " ".data ++ pkg.data) "builds".data
    (by decide) (by decide)

theorem last_word_updates (kw pkg : String) :
    (pySplit (kw ++ " " ++ pkg ++ " updates")).getLastD "" = "updates" := by
  unfold pySplit
  have h1 : (" updates").data = ' ' :: "updates".data := rfl
  have hdata : (kw ++ " " ++ pkg ++ " updates").data =
      (kw.data ++ " ".data ++ pkg.data) ++ ' ' :: "updates".data := by
    simp [String.data_append, h1]
  rw [hdata]
  simpa using lastWord_of_append (kw.data ++ " ".data ++ pkg.data) "updates".data
    (by decide) (by decide)

/-- No nonempty string is simultaneously a leading substring of `"src"` and
of `"builds"` (their first characters differ). -/
theorem startswith_src_builds_absurd (f : String) (hne : f ≠ "")
    (h1 : startswith "src" f = true) (h2 : startswith "builds" f = true) :
    False := by
  have hd := data_ne_of_ne_empty f hne
  unfold startswith at h1 h2
  cases hfd : f.data with
  | nil => exact hd hfd
  | cons c rest =>
    rw [hfd] at h1 h2
    have e1 : ("src").data = 's' :: ['r', 'c'] := rfl
    have e2 : ("builds").data = 'b' :: ['u', 'i', 'l', 'd', 's'] := rfl
    rw [e1] at h1
    rw [e2] at h2
    simp [List.isPrefixOf] at h1 h2
    rw [h1.1] at h2
    exact absurd h2.1 (by decide)

theorem option_goto_src (kw pkg : String) :
    option_from_result (goto_src_item kw pkg) = "src" := by
  show (pySplit ("Goto " ++ pkg ++ " src")).getLastD "" = "src"
  exact last_word_src pkg

theorem option_builds_opt (kw pkg : String) :
    option_from_result (builds_option_item kw pkg) = "builds" := by
  show (pySplit (kw ++ " " ++ pkg ++ " builds")).getLastD "" = "builds"
  exact last_word_builds kw pkg

theorem option_updates_opt (kw pkg : String) :
    option_from_result (updates_option_item kw pkg) = "updates" := by
  show (pySplit (kw ++ " " ++ pkg ++ " updates")).getLastD "" = "updates"
  exact last_word_updates kw pkg

/-- The two-token filter keeps strictly fewer than the full three menu
items for every nonempty filter token. -/
theorem menu_filter_lt_three (kw pkg f : String) (hne : f ≠ "") :
    ((get_package_options kw pkg).filter
      (fun opt => startswith (option_from_result opt) f)).length < 3 := by
  unfold get_package_options
  simp only [List.filter_cons, List.filter_nil, option_goto_src,
    option_builds_opt, option_updates_opt]
  cases hsrc : startswith "src" f <;> cases hbld : startswith "builds" f <;>
    cases hupd : startswith "updates" f <;> simp
  exact (startswith_src_builds_absurd f hne hsrc hbld).elim

/-! ### Claim C10 -/

/-- Claim C10: `fetch_user_projects` accumulates, in page order, the entries
of each response's `repos` list while following `repos_pagination.next`
until it is absent, and it is total only under the precondition that every
fetched page contains a `repos` list: a page whose JSON lacks the `repos`
key makes the iteration fail rather than being treated as an empty page. -/
theorem fetch_user_projects_spec :
    (∀ pages : List (Option (List Project)),
      (∀ p ∈ pages, p.isSome = true) →
      fetch_user_projects pages = some ((pages.map (fun p => p.getD [])).flatten))
    ∧ (∀ pages : List (Option (List Project)),
      none ∈ pages → fetch_user_projects pages = none) := by
  constructor
  · intro pages
    induction pages with
    | nil => intro _; rfl
    | cons p rest ih =>
      intro h
      rcases p with _ | rs
      · exact absurd (h none (by simp)) (by simp)
      · have := ih (fun q hq => h q (by simp [hq]))
        simp [fetch_user_projects, this]
  · intro pages
    induction pages with
    | nil => intro h; simp at h
    | cons p rest ih =>
      intro h
      rcases p with _ | rs
      · rfl
      · have hrest : (none : Option (List Project)) ∈ rest := by
          rcases List.mem_cons.mp h with h1 | h1
          · exact absurd h1.symm (by simp)
          · exact h1
        simp [fetch_user_projects, ih hrest]

theorem fetch_user_projects_spec_witness :
    fetch_user_projects [some [⟨"rpms/a", "a", "da"⟩], some [⟨"rpms/b", "b", "db"⟩]] =
      some [(⟨"rpms/a", "a", "da"⟩ : Project), ⟨"rpms/b", "b", "db"⟩]
    ∧ fetch_user_projects [some [], none] = none := by
  constructor
  · have := fetch_user_projects_spec.1
      [some [⟨"rpms/a", "a", "da"⟩], some [⟨"rpms/b", "b", "db"⟩]] (by simp)
    simpa using this
  · exact fetch_user_projects_spec.2 [some [], none] (by simp)

/-! ### Claim C1 -/

/-- Claim C1 (counterexample): `return_project_list` has no "nothing found"
placeholder — a user with zero repos produces an empty rendered list, so the
claimed invariant fails for list-user-projects. -/
theorem user_project_list_can_be_empty :
    ¬ 1 ≤ (return_project_list "fpkg" [some []]).items.length := by decide

/-- Claim C1 (amended): search-projects, list-builds and list-updates always
return at least one item (a placeholder when the query yields zero rows),
but list-user-projects returns exactly one item per fetched repo and hence
an empty list for a user with zero repos. -/
theorem list_actions_nonempty_except_user_projects :
    ∀ (kw term url pkg : String) (ps : List Project) (fmt : Int → String) (now : Int)
      (pkginfo : Option Int) (db : List Build) (us : List Update)
      (pages : List (Option (List Project))),
      1 ≤ (search_pkg_src kw term url ps).items.length
      ∧ 1 ≤ (get_builds fmt now kw pkg pkginfo db).items.length
      ∧ 1 ≤ (get_updates kw pkg us).items.length
      ∧ (∀ ps2, fetch_user_projects pages = some ps2 →
          (return_project_list kw pages).items.length = ps2.length) := by
  intro kw term url pkg ps fmt now pkginfo db us pages
  refine ⟨?_, ?_, ?_, ?_⟩
  · unfold search_pkg_src
    by_cases h : (ps.map (project_item kw)).mergeSort search_le = []
    · simp [h, DispatchResult.items]
    · simpa [h, DispatchResult.items] using List.length_pos.mpr h
  · unfold get_builds
    rcases pkginfo with _ | pid
    · simp [DispatchResult.items]
    · by_cases h : listBuilds db (now - 604800) = []
      · simp [h, DispatchResult.items]
      · simp [h, DispatchResult.items, List.length_mergeSort]
        exact List.length_pos.mpr h
  · unfold get_updates
    by_cases h : us.map (update_item kw) = []
    · simp [h, DispatchResult.items]
    · simpa [h, DispatchResult.items, List.length_mergeSort] using List.length_pos.mpr h
  · intro ps2 h
    simp [return_project_list, h, DispatchResult.items]

theorem list_actions_nonempty_except_user_projects_witness :
    1 ≤ (search_pkg_src "fpkg" "ra" "u" []).items.length
    ∧ 1 ≤ (get_builds (fun _ => "") 0 "fpkg" "p" none []).items.length
    ∧ 1 ≤ (get_updates "fpkg" "p" []).items.length
    ∧ (return_project_list "fpkg" [some [⟨"rpms/a", "a", "da"⟩]]).items.length =
        [(⟨"rpms/a", "a", "da"⟩ : Project)].length := by
  obtain ⟨h1, h2, h3, h4⟩ := list_actions_nonempty_except_user_projects
    "fpkg" "ra" "u" "p" [] (fun _ => "") 0 none [] [] [some [⟨"rpms/a", "a", "da"⟩]]
  exact ⟨h1, h2, h3, h4 [⟨"rpms/a", "a", "da"⟩] rfl⟩

/-! ### Claim C4 -/

theorem search_le_rank (a b : ResultItem) (h : search_le a b = true) :
    nsRank a.name ≤ nsRank b.name := by
  simp only [search_le, pairLeB, search_key, decide_eq_true_eq] at h
  omega

/-- Claim C4: for every non-empty search substring, the search-projects
result list is sorted ascending by the tuple (namespace rank, name length)
— `search_le` compares exactly `(NS_ORDER.get(ns, 2), len(name))` — and
consequently every "rpms" item (rank 0) precedes every "fork" item
(rank 1), which precedes all others (rank 2), regardless of alphabetical
order. -/
theorem search_results_sorted :
    ∀ (kw term url : String) (ps : List Project), term ≠ "" →
      ((search_pkg_src kw term url ps).items.Pairwise (fun a b => search_le a b = true))
      ∧ ((search_pkg_src kw term url ps).items.Pairwise
          (fun a b => nsRank a.name ≤ nsRank b.name)) := by
  intro kw term url ps _
  have hpair : ((search_pkg_src kw term url ps).items.Pairwise
      (fun a b => search_le a b = true)) := by
    have hs := List.sorted_mergeSort search_le_trans search_le_total
      (ps.map (project_item kw))
    unfold search_pkg_src
    by_cases h : (ps.map (project_item kw)).mergeSort search_le = []
    · simp [h, DispatchResult.items]
    · simpa [h, DispatchResult.items] using hs
  exact ⟨hpair, hpair.imp (fun h => search_le_rank _ _ h)⟩

theorem search_results_sorted_witness :
    ((search_pkg_src "fpkg" "ra" "u"
        [⟨"x/radius", "radius", "d1"⟩, ⟨"rpms/rarian", "rarian", "d2"⟩]).items.Pairwise
      (fun a b => search_le a b = true))
    ∧ ((search_pkg_src "fpkg" "ra" "u"
        [⟨"x/radius", "radius", "d1"⟩, ⟨"rpms/rarian", "rarian", "d2"⟩]).items.Pairwise
      (fun a b => nsRank a.name ≤ nsRank b.name)) :=
  search_results_sorted "fpkg" "ra" "u"
    [⟨"x/radius", "radius", "d1"⟩, ⟨"rpms/rarian", "rarian", "d2"⟩] (by decide)

/-! ### Claim C5 -/

/-- Claim C5 (counterexample): the code never truncates the response;
`per_page=20` is only a request parameter, so a service response carrying 21
projects produces 21 result items, refuting "at most 20 for every service
response". -/
theorem search_results_can_exceed_twenty :
    ¬ (search_pkg_src "fpkg" "a" "u"
        (List.replicate 21 ⟨"rpms/a", "a", "d"⟩)).items.length ≤ 20 := by
  have hlen : (((List.replicate 21 (⟨"rpms/a", "a", "d"⟩ : Project)).map
      (project_item "fpkg")).mergeSort search_le).length = 21 := by
    rw [List.length_mergeSort]; simp
  have hne : ((List.replicate 21 (⟨"rpms/a", "a", "d"⟩ : Project)).map
      (project_item "fpkg")).mergeSort search_le ≠ [] := by
    intro h; rw [h] at hlen; simp at hlen
  simp only [search_pkg_src]
  rw [if_neg hne]
  simp only [DispatchResult.items]
  rw [hlen]
  decide

/-- Claim C5 (amended): the request asks the service for at most 20 results
(`per_page=20`, first page only); whenever the response indeed carries at
most 20 projects the result list has at most 20 items, and it always has at
least 1 item (the placeholder when the response contains zero projects). -/
theorem search_results_bounded :
    ∀ (kw term url : String) (ps : List Project), ps.length ≤ 20 →
      1 ≤ (search_pkg_src kw term url ps).items.length
      ∧ (search_pkg_src kw term url ps).items.length ≤ 20 := by
  intro kw term url ps hps
  unfold search_pkg_src
  by_cases h : (ps.map (project_item kw)).mergeSort search_le = []
  · simp [h, DispatchResult.items]
  · constructor
    · simpa [h, DispatchResult.items] using List.length_pos.mpr h
    · simpa [h, DispatchResult.items, List.length_mergeSort] using hps

theorem search_results_bounded_witness :
    1 ≤ (search_pkg_src "fpkg" "ra" "u" [⟨"rpms/rarian", "rarian", "d"⟩]).items.length
    ∧ (search_pkg_src "fpkg" "ra" "u" [⟨"rpms/rarian", "rarian", "d"⟩]).items.length ≤ 20 :=
  search_results_bounded "fpkg" "ra" "u" [⟨"rpms/rarian", "rarian", "d"⟩] (by decide)

/-! ### Claim C6 -/

/-- Claim C6: for every package with at least one returned update, the
list-updates result items are sorted descending by the formatted
description string "<submission date> - <submitter> - karma: <integer>"
— a lexicographic code-point string sort (`charListLe`), not a
parsed-timestamp sort. -/
theorem updates_sorted_by_description_desc :
    ∀ (kw pkg : String) (us : List Update), us ≠ [] →
      (get_updates kw pkg us).items.Pairwise
        (fun a b => charListLe b.description.data a.description.data = true) := by
  intro kw pkg us hus
  have hmap : us.map (update_item kw) ≠ [] := by simp [hus]
  have hs := List.sorted_mergeSort update_desc_ge_trans update_desc_ge_total
    (us.map (update_item kw))
  unfold get_updates
  have : ((us.map (update_item kw)).mergeSort update_desc_ge).Pairwise
      (fun a b => charListLe b.description.data a.description.data = true) :=
    hs.imp (fun h => by simpa [update_desc_ge] using h)
  simpa [hmap, DispatchResult.items] using this

theorem updates_sorted_by_description_desc_witness :
    (get_updates "fpkg" "rarian"
      [⟨"rarian-0.8.1-1", "stable", "2020-01-01", "alice", 1, "u1"⟩,
       ⟨"rarian-0.8.1-2", "testing", "2021-06-01", "bob", 0, "u2"⟩]).items.Pairwise
      (fun a b => charListLe b.description.data a.description.data = true) :=
  updates_sorted_by_description_desc "fpkg" "rarian"
    [⟨"rarian-0.8.1-1", "stable", "2020-01-01", "alice", 1, "u1"⟩,
     ⟨"rarian-0.8.1-2", "testing", "2021-06-01", "bob", 0, "u2"⟩] (by simp)

/-! ### Claim C7 -/

/-- Claim C7: for every package with at least one build inside the window,
the list-builds result items are exactly the stable sort, ascending by the
elapsed seconds `now - useful_time_ts` between the invocation instant and
each build's effective timestamp, of the windowed builds; the sorted keyed
list is pairwise ascending in the elapsed-seconds key, so the most recently
active build comes first. -/
theorem builds_sorted_by_elapsed :
    ∀ (fmt : Int → String) (now : Int) (kw pkg : String) (pid : Int) (db : List Build),
      listBuilds db (now - 7 * 86400) ≠ [] →
      (get_builds fmt now kw pkg (some pid) db).items =
        (((listBuilds db (now - 7 * 86400)).map
            (fun b => (build_item fmt kw b, now - useful_time_ts b))).mergeSort
          build_sort_le).map Prod.fst
      ∧ (((listBuilds db (now - 7 * 86400)).map
            (fun b => (build_item fmt kw b, now - useful_time_ts b))).mergeSort
          build_sort_le).Pairwise (fun p q => p.2 ≤ q.2) := by
  intro fmt now kw pkg pid db hne
  have hmap : (listBuilds db (now - 7 * 86400)).map
      (fun b => (build_item fmt kw b, now - useful_time_ts b)) ≠ [] := by
    simpa using hne
  constructor
  · simp only [get_builds]
    rw [if_neg hmap]
    simp only [DispatchResult.items]
  · have hs := List.sorted_mergeSort build_sort_le_trans build_sort_le_total
      ((listBuilds db (now - 7 * 86400)).map
        (fun b => (build_item fmt kw b, now - useful_time_ts b)))
    exact hs.imp (fun h => by simpa [build_sort_le] using h)

def recent_builds_example : List Build :=
  [ { nvr := some "x-1-3", state := 1, owner_name := some "o", owner_id := none,
      completion_ts := some 14000, start_ts := none, creation_ts := 99002, build_id := 3 }
  , { nvr := some "x-1-1", state := 1, owner_name := some "o", owner_id := none,
      completion_ts := some 99990, start_ts := none, creation_ts := 99000, build_id := 1 }
  , { nvr := some "x-1-2", state := 1, owner_name := some "o", owner_id := none,
      completion_ts := some 95000, start_ts := none, creation_ts := 99001, build_id := 2 } ]

theorem builds_sorted_by_elapsed_witness :
    (get_builds (fun _ => "") 100000 "fpkg" "p" (some 1) recent_builds_example).items =
      (((listBuilds recent_builds_example (100000 - 7 * 86400)).map
          (fun b => (build_item (fun _ => "") "fpkg" b, 100000 - useful_time_ts b))).mergeSort
        build_sort_le).map Prod.fst
    ∧ (((listBuilds recent_builds_example (100000 - 7 * 86400)).map
          (fun b => (build_item (fun _ => "") "fpkg" b, 100000 - useful_time_ts b))).mergeSort
        build_sort_le).Pairwise (fun p q => p.2 ≤ q.2) :=
  builds_sorted_by_elapsed (fun _ => "") 100000 "fpkg" "p" 1 recent_builds_example (by decide)

/-! ### Claim C3 -/

/-- A build created one hour before the example invocation instant
`1000000`, but whose completion (and hence effective) timestamp `100` lies
far outside the 7-day window. -/
def lateBuild : Build :=
  { nvr := some "foo-1.0-1", state := 1, owner_name := some "alice", owner_id := none,
    completion_ts := some 100, start_ts := none, creation_ts := 996400, build_id := 7 }

/-- Claim C3 (counterexample): the window test uses the creation timestamp
(`createdAfter`), not the effective timestamp.  `lateBuild` has an effective
timestamp older than `7 * 86400` seconds before the invocation instant, yet
it is listed because it was created inside the window — so "excludes every
build whose effective timestamp is older than the window" is false. -/
theorem builds_window_ignores_effective_timestamp :
    useful_time_ts lateBuild < 1000000 - 7 * 86400
    ∧ (get_builds (fun _ => "") 1000000 "fpkg" "foo" (some 7) [lateBuild]).items =
        [build_item (fun _ => "") "fpkg" lateBuild] := by
  constructor
  · decide
  · have hfilter : listBuilds [lateBuild] (1000000 - 7 * 86400) = [lateBuild] := by decide
    have hmap : (listBuilds [lateBuild] (1000000 - 7 * 86400)).map
        (fun b => (build_item (fun _ => "") "fpkg" b, 1000000 - useful_time_ts b)) =
        [(build_item (fun _ => "") "fpkg" lateBuild, 1000000 - useful_time_ts lateBuild)] := by
      rw [hfilter]; rfl
    simp only [get_builds]
    rw [hmap, if_neg (by simp), List.mergeSort_singleton]
    simp only [DispatchResult.items, List.map]

/-- Claim C3 (amended): the 7-day window of list-builds tests the CREATION
timestamp: a build of the package is listed iff `now - 7*86400 <
creation_ts` (so a build created inside the window is listed even when its
effective timestamp is older than the window); independently, for a build
whose `completion_ts` is set to a nonzero value, the effective
(display/sort) timestamp is that completion time even when `start_ts`
differs. -/
theorem builds_window_filters_by_creation :
    ∀ (fmt : Int → String) (now : Int) (kw pkg : String) (pid : Int) (db : List Build)
      (b : Build), b ∈ db →
      ((b ∈ listBuilds db (now - 7 * 86400)) ↔ now - 7 * 86400 < b.creation_ts)
      ∧ (now - 7 * 86400 < b.creation_ts →
          build_item fmt kw b ∈ (get_builds fmt now kw pkg (some pid) db).items)
      ∧ (∀ v : Int, b.completion_ts = some v → v ≠ 0 → useful_time_ts b = v) := by
  intro fmt now kw pkg pid db b hmem
  refine ⟨?_, ?_, ?_⟩
  · simp [listBuilds, List.mem_filter, hmem]
  · intro hcr
    have hb : b ∈ listBuilds db (now - 7 * 86400) := by
      unfold listBuilds
      exact List.mem_filter.mpr ⟨hmem, by simpa using hcr⟩
    have hp : (build_item fmt kw b, now - useful_time_ts b) ∈
        (listBuilds db (now - 7 * 86400)).map
          (fun b2 => (build_item fmt kw b2, now - useful_time_ts b2)) :=
      List.mem_map_of_mem _ hb
    have hne : (listBuilds db (now - 7 * 86400)).map
        (fun b2 => (build_item fmt kw b2, now - useful_time_ts b2)) ≠ [] :=
      List.ne_nil_of_mem hp
    simp only [get_builds]
    rw [if_neg hne]
    simp only [DispatchResult.items]
    exact List.mem_map_of_mem Prod.fst (List.mem_mergeSort.mpr hp)
  · intro v hv hnz
    simp [useful_time_ts, truthy, hv, hnz]

theorem builds_window_filters_by_creation_witness :
    ((lateBuild ∈ listBuilds [lateBuild] (1000000 - 7 * 86400)) ↔
      1000000 - 7 * 86400 < lateBuild.creation_ts)
    ∧ (1000000 - 7 * 86400 < lateBuild.creation_ts →
        build_item (fun _ => "") "fpkg" lateBuild ∈
          (get_builds (fun _ => "") 1000000 "fpkg" "p" (some 7) [lateBuild]).items)
    ∧ (∀ v : Int, lateBuild.completion_ts = some v → v ≠ 0 →
        useful_time_ts lateBuild = v) :=
  builds_window_filters_by_creation (fun _ => "") 1000000 "fpkg" "p" 7 [lateBuild]
    lateBuild (by decide)

/-! ### Claim C2 -/

/-- Claim C2: for every (keyword, argument) pair the dispatcher routes
exactly as follows — empty argument invokes the user-project list (no
search call: the result does not depend on any search input); one token
without trailing space invokes search, whose request pattern is
`*<token>*`; one token with trailing space yields the 3-item package menu;
two tokens with second token exactly "builds"/"updates" invoke the
respective listing; two tokens otherwise yield the filtered menu; any
other token count yields no action. -/
theorem dispatcher_routing :
    ∀ (kw arg res_url : String) (sprojects : List Project)
      (pages : List (Option (List Project))) (fmt : Int → String) (now : Int)
      (pkginfo : Option Int) (db : List Build) (updates : List Update),
      (arg = "" →
        on_event kw arg res_url sprojects pages fmt now pkginfo db updates =
          return_project_list kw pages)
      ∧ (∀ t, pySplit arg = [t] → arg.data.getLastD ' ' ≠ ' ' →
          on_event kw arg res_url sprojects pages fmt now pkginfo db updates =
            search_pkg_src kw t res_url sprojects
          ∧ search_pattern t = "*" ++ t ++ "*")
      ∧ (∀ t, pySplit arg = [t] → arg.data.getLastD ' ' = ' ' →
          on_event kw arg res_url sprojects pages fmt now pkginfo db updates =
            .bare (get_package_options kw t)
          ∧ (get_package_options kw t).length = 3)
      ∧ (∀ t, pySplit arg = [t, "builds"] →
          on_event kw arg res_url sprojects pages fmt now pkginfo db updates =
            get_builds fmt now kw t pkginfo db)
      ∧ (∀ t, pySplit arg = [t, "updates"] →
          on_event kw arg res_url sprojects pages fmt now pkginfo db updates =
            get_updates kw t updates)
      ∧ (∀ t f, pySplit arg = [t, f] → f ≠ "builds" → f ≠ "updates" →
          on_event kw arg res_url sprojects pages fmt now pkginfo db updates =
            .bare ((get_package_options kw t).filter
              (fun opt => startswith (option_from_result opt) f)))
      ∧ ((pySplit arg).length ≠ 1 → (pySplit arg).length ≠ 2 → arg ≠ "" →
          on_event kw arg res_url sprojects pages fmt now pkginfo db updates =
            .noAction) := by
  intro kw arg res_url sprojects pages fmt now pkginfo db updates
  refine ⟨?_, ?_, ?_, ?_, ?_, ?_, ?_⟩
  · intro h
    rw [h]
    exact on_event_empty kw res_url sprojects pages fmt now pkginfo db updates
  · intro t ht hl
    have hmem : t ∈ pySplit arg := by rw [ht]; simp
    refine ⟨on_event_search kw arg res_url sprojects pages fmt now pkginfo db updates
      t ht hl, ?_⟩
    simp [search_pattern, pyStrip_of_token arg t hmem]
  · intro t ht hl
    exact ⟨on_event_menu kw arg res_url sprojects pages fmt now pkginfo db updates
      t ht hl, rfl⟩
  · intro t ht
    exact on_event_builds kw arg res_url sprojects pages fmt now pkginfo db updates t ht
  · intro t ht
    exact on_event_updates kw arg res_url sprojects pages fmt now pkginfo db updates t ht
  · intro t f ht hb hu
    exact on_event_filter kw arg res_url sprojects pages fmt now pkginfo db updates
      t f ht hb hu
  · intro h1 h2 h0
    exact on_event_other kw arg res_url sprojects pages fmt now pkginfo db updates h1 h2 h0

theorem dispatcher_routing_witness :
    on_event "fpkg" "" "u" [] [] (fun _ => "") 0 none [] [] =
      return_project_list "fpkg" []
    ∧ (on_event "fpkg" "rarian" "u" [] [] (fun _ => "") 0 none [] [] =
        search_pkg_src "fpkg" "rarian" "u" []
      ∧ search_pattern "rarian" = "*" ++ "rarian" ++ "*")
    ∧ (on_event "fpkg" "rarian " "u" [] [] (fun _ => "") 0 none [] [] =
        .bare (get_package_options "fpkg" "rarian")
      ∧ (get_package_options "fpkg" "rarian").length = 3)
    ∧ on_event "fpkg" "rarian builds" "u" [] [] (fun _ => "") 0 none [] [] =
        get_builds (fun _ => "") 0 "fpkg" "rarian" none []
    ∧ on_event "fpkg" "rarian updates" "u" [] [] (fun _ => "") 0 none [] [] =
        get_updates "fpkg" "rarian" []
    ∧ on_event "fpkg" "rarian bui" "u" [] [] (fun _ => "") 0 none [] [] =
        .bare ((get_package_options "fpkg" "rarian").filter
          (fun opt => startswith (option_from_result opt) "bui"))
    ∧ on_event "fpkg" "rarian bui x" "u" [] [] (fun _ => "") 0 none [] [] =
        .noAction := by
  refine ⟨?_, ?_, ?_, ?_, ?_, ?_, ?_⟩
  · exact (dispatcher_routing "fpkg" "" "u" [] [] (fun _ => "") 0 none [] []).1 rfl
  · exact (dispatcher_routing "fpkg" "rarian" "u" [] [] (fun _ => "") 0 none [] []).2.1
      "rarian" (by decide) (by decide)
  · exact (dispatcher_routing "fpkg" "rarian " "u" [] [] (fun _ => "") 0 none [] []).2.2.1
      "rarian" (by decide) (by decide)
  · exact (dispatcher_routing "fpkg" "rarian builds" "u" [] [] (fun _ => "") 0 none [] []).2.2.2.1
      "rarian" (by decide)
  · exact (dispatcher_routing "fpkg" "rarian updates" "u" [] [] (fun _ => "") 0 none [] []).2.2.2.2.1
      "rarian" (by decide)
  · exact (dispatcher_routing "fpkg" "rarian bui" "u" [] [] (fun _ => "") 0 none [] []).2.2.2.2.2.1
      "rarian" "bui" (by decide) (by decide) (by decide)
  · exact (dispatcher_routing "fpkg" "rarian bui x" "u" [] [] (fun _ => "") 0 none [] []).2.2.2.2.2.2
      (by decide) (by decide) (by decide)

/-! ### Claim C8 -/

/-- Claim C8: the two-token filter keeps exactly the package-menu items
whose title's last whitespace-delimited word starts with the filter token:
filtering on "up" yields exactly the "updates" item; for every nonempty
filter token the filtered menu has fewer than 3 items, so the full 3-item
menu is never produced by the two-token filter branch and is reachable
only via the one-token-with-trailing-space branch. -/
theorem menu_filter_behavior :
    (∀ kw pkg : String,
      (get_package_options kw pkg).filter
        (fun opt => startswith (option_from_result opt) "up") =
        [updates_option_item kw pkg])
    ∧ (∀ kw pkg f : String, f ≠ "" →
        ((get_package_options kw pkg).filter
          (fun opt => startswith (option_from_result opt) f)).length < 3)
    ∧ (∀ (kw arg res_url : String) (sprojects : List Project)
        (pages : List (Option (List Project))) (fmt : Int → String) (now : Int)
        (pkginfo : Option Int) (db : List Build) (updates : List Update)
        (t f : String), pySplit arg = [t, f] → f ≠ "builds" → f ≠ "updates" →
        (on_event kw arg res_url sprojects pages fmt now pkginfo db updates).items.length < 3)
    ∧ (∀ (kw arg res_url : String) (sprojects : List Project)
        (pages : List (Option (List Project))) (fmt : Int → String) (now : Int)
        (pkginfo : Option Int) (db : List Build) (updates : List Update)
        (t : String), pySplit arg = [t] → arg.data.getLastD ' ' = ' ' →
        (on_event kw arg res_url sprojects pages fmt now pkginfo db updates).items =
          get_package_options kw t
        ∧ (get_package_options kw t).length = 3) := by
  refine ⟨?_, ?_, ?_, ?_⟩
  · intro kw pkg
    have h1 : startswith "src" "up" = false := by decide
    have h2 : startswith "builds" "up" = false := by decide
    have h3 : startswith "updates" "up" = true := by decide
    unfold get_package_options
    simp only [List.filter_cons, List.filter_nil, option_goto_src,
      option_builds_opt, option_updates_opt, h1, h2, h3]
    simp
  · intro kw pkg f hne
    exact menu_filter_lt_three kw pkg f hne
  · intro kw arg res_url sprojects pages fmt now pkginfo db updates t f ht hb hu
    have hmem : f ∈ pySplit arg := by rw [ht]; simp
    rw [on_event_filter kw arg res_url sprojects pages fmt now pkginfo db updates
      t f ht hb hu]
    exact menu_filter_lt_three kw t f (pySplit_mem_ne_empty arg f hmem)
  · intro kw arg res_url sprojects pages fmt now pkginfo db updates t ht hl
    rw [on_event_menu kw arg res_url sprojects pages fmt now pkginfo db updates t ht hl]
    exact ⟨rfl, rfl⟩

theorem menu_filter_behavior_witness :
    (get_package_options "fpkg" "rarian").filter
      (fun opt => startswith (option_from_result opt) "up") =
      [updates_option_item "fpkg" "rarian"]
    ∧ ((get_package_options "fpkg" "rarian").filter
        (fun opt => startswith (option_from_result opt) "up")).length < 3
    ∧ (on_event "fpkg" "rarian bu" "u" [] [] (fun _ => "") 0 none [] []).items.length < 3
    ∧ ((on_event "fpkg" "rarian " "u" [] [] (fun _ => "") 0 none [] []).items =
        get_package_options "fpkg" "rarian"
      ∧ (get_package_options "fpkg" "rarian").length = 3) := by
  refine ⟨menu_filter_behavior.1 "fpkg" "rarian",
    menu_filter_behavior.2.1 "fpkg" "rarian" "up" (by decide),
    menu_filter_behavior.2.2.1 "fpkg" "rarian bu" "u" [] [] (fun _ => "") 0 none [] []
      "rarian" "bu" (by decide) (by decide) (by decide),
    menu_filter_behavior.2.2.2 "fpkg" "rarian " "u" [] [] (fun _ => "") 0 none [] []
      "rarian" (by decide) (by decide)⟩

/-! ### Claim C9 -/

/-- Claim C9: the dispatcher's return value has no uniform shape — the
search, user-projects (on a successful fetch), builds-with-known-package,
and updates branches return the `RenderResultListAction` wrapper, while the
package-menu branch, the two-token filter branch, and the builds branch for
an unknown package each return a bare Python list of result items. -/
theorem dispatcher_return_shapes :
    ∀ (kw arg res_url : String) (sprojects : List Project)
      (pages : List (Option (List Project))) (fmt : Int → String) (now : Int)
      (pkginfo : Option Int) (db : List Build) (updates : List Update),
      ((∃ ps2, fetch_user_projects pages = some ps2) →
        (on_event kw "" res_url sprojects pages fmt now pkginfo db updates).isRender = true)
      ∧ (∀ t, pySplit arg = [t] → arg.data.getLastD ' ' ≠ ' ' →
          (on_event kw arg res_url sprojects pages fmt now pkginfo db updates).isRender = true)
      ∧ (∀ t, pySplit arg = [t] → arg.data.getLastD ' ' = ' ' →
          (on_event kw arg res_url sprojects pages fmt now pkginfo db updates).isBare = true)
      ∧ (∀ t pid, pySplit arg = [t, "builds"] → pkginfo = some pid →
          (on_event kw arg res_url sprojects pages fmt now pkginfo db updates).isRender = true)
      ∧ (∀ t, pySplit arg = [t, "builds"] → pkginfo = none →
          (on_event kw arg res_url sprojects pages fmt now pkginfo db updates).isBare = true)
      ∧ (∀ t, pySplit arg = [t, "updates"] →
          (on_event kw arg res_url sprojects pages fmt now pkginfo db updates).isRender = true)
      ∧ (∀ t f, pySplit arg = [t, f] → f ≠ "builds" → f ≠ "updates" →
          (on_event kw arg res_url sprojects pages fmt now pkginfo db updates).isBare = true) := by
  intro kw arg res_url sprojects pages fmt now pkginfo db updates
  refine ⟨?_, ?_, ?_, ?_, ?_, ?_, ?_⟩
  · rintro ⟨ps2, hps⟩
    rw [on_event_empty kw res_url sprojects pages fmt now pkginfo db updates]
    simp [return_project_list, hps, DispatchResult.isRender]
  · intro t ht hl
    rw [on_event_search kw arg res_url sprojects pages fmt now pkginfo db updates t ht hl]
    unfold search_pkg_src
    by_cases h : (sprojects.map (project_item kw)).mergeSort search_le = [] <;>
      simp [h, DispatchResult.isRender]
  · intro t ht hl
    rw [on_event_menu kw arg res_url sprojects pages fmt now pkginfo db updates t ht hl]
    rfl
  · intro t pid ht hpk
    rw [on_event_builds kw arg res_url sprojects pages fmt now pkginfo db updates t ht, hpk]
    unfold get_builds
    by_cases h : (listBuilds db (now - 604800)).map
        (fun b => (build_item fmt kw b, now - useful_time_ts b)) = [] <;>
      simp [h, DispatchResult.isRender]
  · intro t ht hpk
    rw [on_event_builds kw arg res_url sprojects pages fmt now pkginfo db updates t ht, hpk]
    rfl
  · intro t ht
    rw [on_event_updates kw arg res_url sprojects pages fmt now pkginfo db updates t ht]
    unfold get_updates
    by_cases h : updates.map (update_item kw) = [] <;>
      simp [h, DispatchResult.isRender]
  · intro t f ht hb hu
    rw [on_event_filter kw arg res_url sprojects pages fmt now pkginfo db updates t f ht hb hu]
    rfl

theorem dispatcher_return_shapes_witness :
    (on_event "fpkg" "" "u" [] [some []] (fun _ => "") 0 none [] []).isRender = true
    ∧ (on_event "fpkg" "rarian" "u" [] [] (fun _ => "") 0 none [] []).isRender = true
    ∧ (on_event "fpkg" "rarian " "u" [] [] (fun _ => "") 0 none [] []).isBare = true
    ∧ (on_event "fpkg" "rarian builds" "u" [] [] (fun _ => "") 0 (some 1) [] []).isRender = true
    ∧ (on_event "fpkg" "rarian builds" "u" [] [] (fun _ => "") 0 none [] []).isBare = true
    ∧ (on_event "fpkg" "rarian updates" "u" [] [] (fun _ => "") 0 none [] []).isRender = true
    ∧ (on_event "fpkg" "rarian bui" "u" [] [] (fun _ => "") 0 none [] []).isBare = true := by
  refine ⟨?_, ?_, ?_, ?_, ?_, ?_, ?_⟩
  · exact (dispatcher_return_shapes "fpkg" "" "u" [] [some []] (fun _ => "") 0
      none [] []).1 ⟨[], rfl⟩
  · exact (dispatcher_return_shapes "fpkg" "rarian" "u" [] [] (fun _ => "") 0
      none [] []).2.1 "rarian" (by decide) (by decide)
  · exact (dispatcher_return_shapes "fpkg" "rarian " "u" [] [] (fun _ => "") 0
      none [] []).2.2.1 "rarian" (by decide) (by decide)
  · exact (dispatcher_return_shapes "fpkg" "rarian builds" "u" [] [] (fun _ => "") 0
      (some 1) [] []).2.2.2.1 "rarian" 1 (by decide) rfl
  · exact (dispatcher_return_shapes "fpkg" "rarian builds" "u" [] [] (fun _ => "") 0
      none [] []).2.2.2.2.1 "rarian" (by decide) rfl
  · exact (dispatcher_return_shapes "fpkg" "rarian updates" "u" [] [] (fun _ => "") 0
      none [] []).2.2.2.2.2.1 "rarian" (by decide)
  · exact (dispatcher_return_shapes "fpkg" "rarian bui" "u" [] [] (fun _ => "") 0
      none [] []).2.2.2.2.2.2 "rarian" "bui" (by decide) (by decide) (by decide)
